import Mathlib

/-!
Verification of the `ImageRecognition` detector from `discord_bot.py`
(single-scale and multi-scale template matching, reference loading, and
the visualization helper).

The Python code is embedded shallowly.  File-system and OpenCV effects are
abstracted into an `Env` record: `fileExists` models `os.path.exists`,
`imread` models `cv2.imread` (returning `none` on a missing/undecodable
file), `score` models the per-offset value of the `cv2.matchTemplate`
response surface for `TM_CCOEFF_NORMED`, `resizeContent` models the pixel
content produced by `cv2.resize` (its output dimensions are fixed by the
call), and `imwriteOk` models `cv2.imwrite` (`.error` = the call raised,
`.ok b` = the call returned the success flag `b`, which the Python code
ignores).  Geometry behaviour of `cv2.matchTemplate` (it raises when the
template exceeds the image in either dimension) is modelled concretely.

Pixel values and scores are rationals.  For claims that need the actual
matching metric, `nccSq` below gives an exact model of the normalized
cross-correlation score under the strictly monotone embedding
`x ↦ x * |x|` (signed square), which keeps the value inside `ℚ`:
order comparisons, the sign, and the values `0`, `1`, `-1` are preserved,
so thresholds `t` translate to `t * |t|` and "confidence ≈ 1" is `= 1`.
-/

structure Img where
  h : Nat
  w : Nat
  px : Nat → Nat → Nat → ℚ

structure Surface where
  rh : Nat
  rw : Nat
  val : Nat → Nat → ℚ

structure DetectionResult where
  found : Bool
  confidence : ℚ
  position : Option (Nat × Nat)
deriving DecidableEq, Repr

structure Env where
  fileExists : String → Bool
  imread : String → Option Img
  score : Img → Img → Nat → Nat → ℚ
  resizeContent : Img → Nat → Nat → Nat → Nat → Nat → ℚ
  rectangle : Img → (Int × Int) → (Int × Int) → Img
  putText : Img → String → (Int × Int) → Img
  imwriteOk : String → Img → Except Unit Bool

/-- Model of `cv2.matchTemplate(img, tmpl, TM_CCOEFF_NORMED)`: raises (here `.error`)
unless the template is nonempty and no larger than the image; otherwise the
response surface has dimensions `(img.h - tmpl.h + 1) × (img.w - tmpl.w + 1)`
and per-offset values given by the score function. -/
def matchTemplate (sc : Img → Img → Nat → Nat → ℚ) (img tmpl : Img) :
    Except Unit Surface :=
  if 0 < tmpl.h ∧ 0 < tmpl.w ∧ tmpl.h ≤ img.h ∧ tmpl.w ≤ img.w then
    .ok ⟨img.h - tmpl.h + 1, img.w - tmpl.w + 1, fun y x => sc img tmpl y x⟩
  else
    .error ()

/-- Scan order of `cv2.minMaxLoc`: row-major, positions reported as `(x, y)`. -/
def positions (rh rw : Nat) : List (Nat × Nat) :=
  (List.range rh).flatMap fun y => (List.range rw).map fun x => (x, y)

/-- One comparison step of `cv2.minMaxLoc` (max part): strictly greater
values replace the current best, so the first occurrence of the maximum in
scan order is kept. -/
def maxStep (s : Surface) (a : ℚ × (Nat × Nat)) (p : Nat × Nat) :
    ℚ × (Nat × Nat) :=
  if a.1 < s.val p.2 p.1 then (s.val p.2 p.1, p) else a

/-- The `(max_val, max_loc)` part of `cv2.minMaxLoc`. -/
def maxLoc (s : Surface) : ℚ × (Nat × Nat) :=
  (positions s.rh s.rw).foldl (maxStep s) (s.val 0 0, (0, 0))

/-- The mutable attributes of the Python `ImageRecognition` object. -/
structure RecState where
  reference_image_path : String
  threshold : ℚ
  reference_image : Option Img

/-- Model of `ImageRecognition._load_reference_image`: net effect on
`self.reference_image` (missing file and failed decode both leave `None`;
the method never raises). -/
def load_reference_image (env : Env) (path : String) : Option Img :=
  if env.fileExists path then env.imread path else none

/-- Model of `ImageRecognition.__init__`: stores the path and threshold and loads the
reference image; never raises. -/
def ImageRecognition_init (env : Env) (reference_image_path : String)
    (threshold : ℚ) : RecState :=
  { reference_image_path := reference_image_path
    threshold := threshold
    reference_image := load_reference_image env reference_image_path }

/-- Body of `ImageRecognition.detect_ice_butterfly`, written over exactly the
components of `self` and of the environment that the method reads.  The
`try/except` around the body catches the geometry error of
`cv2.matchTemplate` and turns it into `(False, 0.0, None)`. -/
def singleResult (fe : String → Bool) (ir : String → Option Img)
    (sc : Img → Img → Nat → Nat → ℚ)
    (reference_image : Option Img) (threshold : ℚ)
    (screenshot_path : String) : DetectionResult :=
  match reference_image with
  | none => ⟨false, 0, none⟩
  | some ref =>
    if fe screenshot_path then
      match ir screenshot_path with
      | none => ⟨false, 0, none⟩
      | some screenshot =>
        match matchTemplate sc screenshot ref with
        | .error _ => ⟨false, 0, none⟩
        | .ok result =>
          let m := maxLoc result
          if threshold ≤ m.1 then ⟨true, m.1, some m.2⟩
          else ⟨false, m.1, some m.2⟩
    else ⟨false, 0, none⟩

/-- Model of `ImageRecognition.detect_ice_butterfly`: the method reads but never
writes `self`, so the returned state is the input state. -/
def detect_ice_butterfly (env : Env) (st : RecState)
    (screenshot_path : String) : DetectionResult × RecState :=
  (singleResult env.fileExists env.imread env.score st.reference_image
      st.threshold screenshot_path, st)

/-- Model of `cv2.resize(img, (w, h))`: output dimensions are the requested ones. -/
def cvResize (rc : Img → Nat → Nat → Nat → Nat → Nat → ℚ) (img : Img)
    (w h : Nat) : Img :=
  ⟨h, w, rc img w h⟩

/-- The scale list of `detect_multiple_scales`, in iteration order. -/
def scales : List ℚ := [1/2, 3/4, 1, 5/4, 3/2]

/-- One iteration of the `for scale in scales` loop: `int()` truncation of
the scaled dimensions, the two `continue` guards, template matching, and the
strict `>` update of `(best_confidence, best_position)`.  A raising
`cv2.matchTemplate` propagates (`.error`) to the except of the method. -/
def scaleStep (sc : Img → Img → Nat → Nat → ℚ)
    (rc : Img → Nat → Nat → Nat → Nat → Nat → ℚ)
    (ref screenshot : Img) (acc : ℚ × Option (Nat × Nat)) (scale : ℚ) :
    Except Unit (ℚ × Option (Nat × Nat)) :=
  let width : Int := ⌊(ref.w : ℚ) * scale⌋
  let height : Int := ⌊(ref.h : ℚ) * scale⌋
  if width ≤ 0 ∨ height ≤ 0 then .ok acc
  else
    let resized_ref := cvResize rc ref width.toNat height.toNat
    if screenshot.h < resized_ref.h ∨ screenshot.w < resized_ref.w then .ok acc
    else
      match matchTemplate sc screenshot resized_ref with
      | .error e => .error e
      | .ok result =>
        let m := maxLoc result
        if acc.1 < m.1 then .ok (m.1, some m.2) else .ok acc

/-- Body of `ImageRecognition.detect_multiple_scales` over exactly the
components it reads. -/
def multiResult (fe : String → Bool) (ir : String → Option Img)
    (sc : Img → Img → Nat → Nat → ℚ)
    (rc : Img → Nat → Nat → Nat → Nat → Nat → ℚ)
    (reference_image : Option Img) (threshold : ℚ)
    (screenshot_path : String) : DetectionResult :=
  match reference_image with
  | none => ⟨false, 0, none⟩
  | some ref =>
    if fe screenshot_path then
      match ir screenshot_path with
      | none => ⟨false, 0, none⟩
      | some screenshot =>
        match scales.foldlM (scaleStep sc rc ref screenshot)
            ((0 : ℚ), (none : Option (Nat × Nat))) with
        | .error _ => ⟨false, 0, none⟩
        | .ok best =>
          if threshold ≤ best.1 then ⟨true, best.1, best.2⟩
          else ⟨false, best.1, best.2⟩
    else ⟨false, 0, none⟩

/-- Model of `ImageRecognition.detect_multiple_scales`: reads but never writes
`self`. -/
def detect_multiple_scales (env : Env) (st : RecState)
    (screenshot_path : String) : DetectionResult × RecState :=
  (multiResult env.fileExists env.imread env.score env.resizeContent
      st.reference_image st.threshold screenshot_path, st)

/-- Body of `ImageRecognition.create_detection_visualization`: the screenshot
existence check comes first, then the reference check; drawing uses the
reference dimensions; the result of `cv2.imwrite` is ignored — only a raised
exception (caught by the `except`) produces `False`. -/
def vizResult (fe : String → Bool) (ir : String → Option Img)
    (rect : Img → (Int × Int) → (Int × Int) → Img)
    (ptxt : Img → String → (Int × Int) → Img)
    (iw : String → Img → Except Unit Bool)
    (reference_image : Option Img) (screenshot_path : String)
    (position : Int × Int) (output_path : String) : Bool :=
  if fe screenshot_path then
    match reference_image with
    | none => false
    | some ref =>
      match ir screenshot_path with
      | none => false
      | some screenshot =>
        let bottom_right : Int × Int :=
          (position.1 + (ref.w : Int), position.2 + (ref.h : Int))
        let boxed := rect screenshot position bottom_right
        let labeled := ptxt boxed "Ice Butterfly Found!"
          (position.1, position.2 - 10)
        match iw output_path labeled with
        | .error _ => false
        | .ok _ => true
  else false

/-- Model of `ImageRecognition.create_detection_visualization`: reads but never
writes `self`. -/
def create_detection_visualization (env : Env) (st : RecState)
    (screenshot_path : String) (position : Int × Int)
    (output_path : String) : Bool × RecState :=
  (vizResult env.fileExists env.imread env.rectangle env.putText
      env.imwriteOk st.reference_image screenshot_path position output_path,
    st)

/-- Spec-side description of one scale of `detect_multiple_scales`
(§4.3 of the spec): `none` when the scale is skipped (non-positive resized
dimensions, resized template larger than the screenshot, or matching not
defined), otherwise the best single-scale score and its location. -/
def scaleResult (sc : Img → Img → Nat → Nat → ℚ)
    (rc : Img → Nat → Nat → Nat → Nat → Nat → ℚ)
    (ref screenshot : Img) (scale : ℚ) : Option (ℚ × (Nat × Nat)) :=
  let width : Int := ⌊(ref.w : ℚ) * scale⌋
  let height : Int := ⌊(ref.h : ℚ) * scale⌋
  if width ≤ 0 ∨ height ≤ 0 then none
  else
    let resized_ref := cvResize rc ref width.toNat height.toNat
    if screenshot.h < resized_ref.h ∨ screenshot.w < resized_ref.w then none
    else
      match matchTemplate sc screenshot resized_ref with
      | .error _ => none
      | .ok result => some (maxLoc result)

/-- The valid scales of a multi-scale call, in iteration order, each with its
best single-scale score and location. -/
def validScores (sc : Img → Img → Nat → Nat → ℚ)
    (rc : Img → Nat → Nat → Nat → Nat → Nat → ℚ)
    (ref screenshot : Img) : List (ℚ × (Nat × Nat)) :=
  scales.filterMap (scaleResult sc rc ref screenshot)

/-- The pure accumulator update of the multi-scale loop. -/
def keepBest (a : ℚ × Option (Nat × Nat)) (m : ℚ × (Nat × Nat)) :
    ℚ × Option (Nat × Nat) :=
  if a.1 < m.1 then (m.1, some m.2) else a

/-- Modelled from the spec: per-channel mean of a `h × w` region at offset
`(x0, y0)` (channel `c`), as used by normalized cross-correlation
(`cv2.matchTemplate` with `TM_CCOEFF_NORMED` subtracts separate means per
channel; this library primitive is not part of the repository sources). -/
def regionMean (px : Nat → Nat → Nat → ℚ) (y0 x0 h w c : Nat) : ℚ :=
  (∑ i ∈ Finset.range h, ∑ j ∈ Finset.range w, px (y0 + i) (x0 + j) c) /
    ((h : ℚ) * (w : ℚ))

/-- Modelled from the spec: mean-subtracted value of a region cell. -/
def regionDev (px : Nat → Nat → Nat → ℚ) (y0 x0 h w c i j : Nat) : ℚ :=
  px (y0 + i) (x0 + j) c - regionMean px y0 x0 h w c

/-- Modelled from the spec: numerator of the normalized cross-correlation of
the template against the window of the image at offset `(x, y)`, summed over
the three colour channels. -/
def corrNum (img tmpl : Img) (y x : Nat) : ℚ :=
  ∑ c ∈ Finset.range 3, ∑ i ∈ Finset.range tmpl.h, ∑ j ∈ Finset.range tmpl.w,
    regionDev tmpl.px 0 0 tmpl.h tmpl.w c i j *
      regionDev img.px y x tmpl.h tmpl.w c i j

/-- Modelled from the spec: sum of squared mean deviations of the template
(`0` exactly when the template is constant per channel). -/
def tmplSS (tmpl : Img) : ℚ :=
  ∑ c ∈ Finset.range 3, ∑ i ∈ Finset.range tmpl.h, ∑ j ∈ Finset.range tmpl.w,
    regionDev tmpl.px 0 0 tmpl.h tmpl.w c i j ^ 2

/-- Modelled from the spec: sum of squared mean deviations of the image
window at offset `(x, y)`. -/
def winSS (img tmpl : Img) (y x : Nat) : ℚ :=
  ∑ c ∈ Finset.range 3, ∑ i ∈ Finset.range tmpl.h, ∑ j ∈ Finset.range tmpl.w,
    regionDev img.px y x tmpl.h tmpl.w c i j ^ 2

/-- Modelled from the spec: the normalized cross-correlation score
`num / sqrt(tmplSS * winSS)` represented exactly in `ℚ` through the strictly
monotone embedding `x ↦ x * |x|`; by Cauchy–Schwarz a zero denominator
forces a zero numerator, and `ℚ` division by zero yields `0`, matching the
zero-numerator convention of the library. -/
def nccSq (img tmpl : Img) (y x : Nat) : ℚ :=
  corrNum img tmpl y x * |corrNum img tmpl y x| /
    (tmplSS tmpl * winSS img tmpl y x)

/-- A constant image. -/
def constImg (h w : Nat) (v : ℚ) : Img := ⟨h, w, fun _ _ _ => v⟩

/-- Environment with no files at all. -/
def env0 : Env :=
  { fileExists := fun _ => false
    imread := fun _ => none
    score := fun _ _ _ _ => 0
    resizeContent := fun _ _ _ _ _ _ => 0
    rectangle := fun i _ _ => i
    putText := fun i _ _ => i
    imwriteOk := fun _ _ => .ok true }

-- Rational arithmetic must evaluate inside `decide`; the kernel unfolds
-- these operations regardless, this only aligns elaboration with it.
attribute [local semireducible] Rat.add Rat.mul Rat.inv Rat.sub

set_option maxRecDepth 40000

/-- Reference image of the concrete scenarios: one row `[0, 2]`
(all three channels equal). -/
def refW : Img := ⟨1, 2, fun _ j _ => if j = 0 then 0 else 2⟩

/-- Canvas with rows `[5, 0, 2, 2]` and `[5, 5, 5, 5]`: the reference
`refW` pasted at offset `(1, 0)`, unique best match. -/
def canvasW : Img :=
  ⟨2, 4, fun i j _ =>
    if i = 0 then (if j = 0 then 5 else if j = 1 then 0 else 2) else 5⟩

/-- Every path exists and decodes to a 9 × 9 constant screenshot. -/
def envRead : Env :=
  { env0 with
    fileExists := fun _ => true
    imread := fun _ => some (constImg 9 9 7) }

def env5 : Env :=
  { env0 with
    fileExists := fun _ => true
    imread := fun _ => some canvasW
    score := nccSq }

def st5 : RecState := ⟨"r", 16/25, some refW⟩

/-- Best-of-all-valid-scales accumulator value, the spec-side (§4.3)
description of the multi-scale loop state after the whole iteration. -/
def multiBest (sc : Img → Img → Nat → Nat → ℚ)
    (rc : Img → Nat → Nat → Nat → Nat → Nat → ℚ)
    (ref screenshot : Img) : ℚ × Option (Nat × Nat) :=
  (validScores sc rc ref screenshot).foldl keepBest (0, none)

/-- A 2 × 2 constant reference image. -/
def ref2 : Img := constImg 2 2 0

/-- A 4 × 4 constant reference image. -/
def ref4 : Img := constImg 4 4 0

/-- Canvas containing the `[0, 2]` reference at offsets 0 and 2 of both
rows: rows `[0, 2, 0, 2]`. -/
def canvas2 : Img := ⟨2, 4, fun _ j _ => if j % 2 = 0 then 0 else 2⟩

/-- Like `env5` but the screenshot is `canvas2`. -/
def env5b : Env :=
  { env5 with
    imread := fun _ => some canvas2 }

/-- Every file exists but none decodes. -/
def envExistsOnly : Env :=
  { env0 with
    fileExists := fun _ => true }

/-- Every path decodes to a 1 × 1 screenshot. -/
def envTiny : Env :=
  { env0 with
    fileExists := fun _ => true
    imread := fun _ => some (constImg 1 1 0) }

/-- Every matching score is `1/2`. -/
def envHalf : Env :=
  { envRead with
    score := fun _ _ _ _ => 1/2 }

/-- Every path decodes to a 3 × 3 screenshot and every matching score is
`-(1/2)`. -/
def envNeg : Env :=
  { envRead with
    imread := fun _ => some (constImg 3 3 0)
    score := fun _ _ _ _ => -(1/2) }

/-- Agrees with `envRead` at the path `"s"` for existence and decoding and
for the matching scores, but differs everywhere detection may not look. -/
def env8b : Env :=
  { envRead with
    fileExists := fun p => p == "s"
    imread := fun p => if p == "s" then some (constImg 9 9 7) else none
    resizeContent := fun _ _ _ _ _ _ => 7
    rectangle := fun _ _ _ => constImg 1 1 0
    putText := fun _ _ _ => constImg 1 1 0
    imwriteOk := fun _ _ => .error () }

/-- Writes always fail by returning `false` (no exception raised). -/
def env9 : Env :=
  { envRead with
    imwriteOk := fun _ _ => .ok false }

/-- State whose reference never loaded, with threshold `0`. -/
def st1c : RecState := ⟨"ref.png", 0, none⟩

/-- State whose reference never loaded, with threshold `4/5`. -/
def stNoRef : RecState := ⟨"r", 4/5, none⟩

/-- State with the 2 × 2 reference and threshold `4/5`. -/
def stRef2 : RecState := ⟨"r", 4/5, some ref2⟩

/-- State with the 2 × 2 reference and threshold `1/2`. -/
def stC3 : RecState := ⟨"r", 1/2, some ref2⟩

/-- State with the 4 × 4 reference and threshold `0`. -/
def st4z : RecState := ⟨"r", 0, some ref4⟩

/-- State with the 4 × 4 reference and threshold `4/5`. -/
def st4w : RecState := ⟨"r", 4/5, some ref4⟩

/-- State with the `[0, 2]` reference and threshold `4/5`. -/
def st9 : RecState := ⟨"r", 4/5, some refW⟩

/-- Like `st9` but under a different stored reference path. -/
def st8b : RecState := ⟨"b", 4/5, some refW⟩

/-! ## Helper lemmas -/

theorem keepBest_fst (a : ℚ × Option (Nat × Nat)) (m : ℚ × (Nat × Nat)) :
    (keepBest a m).1 = max a.1 m.1 := by
  unfold keepBest
  split
  · next h => exact (max_eq_right (le_of_lt h)).symm
  · next h => exact (max_eq_left (le_of_not_lt h)).symm

theorem le_foldl_keepBest (l : List (ℚ × (Nat × Nat)))
    (a : ℚ × Option (Nat × Nat)) :
    a.1 ≤ (l.foldl keepBest a).1 := by
  induction l generalizing a with
  | nil => exact le_refl _
  | cons m t ih =>
    refine le_trans ?_ (ih (keepBest a m))
    rw [keepBest_fst]
    exact le_max_left _ _

theorem foldl_keepBest_fst (l : List (ℚ × (Nat × Nat)))
    (a : ℚ × Option (Nat × Nat)) :
    (l.foldl keepBest a).1 = (l.map Prod.fst).foldl max a.1 := by
  induction l generalizing a with
  | nil => rfl
  | cons m t ih =>
    rw [List.foldl_cons, List.map_cons, List.foldl_cons, ih, keepBest_fst]

theorem foldl_keepBest_eq_self (l : List (ℚ × (Nat × Nat)))
    (a : ℚ × Option (Nat × Nat))
    (h : (l.foldl keepBest a).1 = a.1) : l.foldl keepBest a = a := by
  induction l generalizing a with
  | nil => rfl
  | cons m t ih =>
    rw [List.foldl_cons] at h ⊢
    by_cases hm : a.1 < m.1
    · exfalso
      have h1 : (keepBest a m).1 = m.1 := by
        rw [keepBest_fst]; exact max_eq_right (le_of_lt hm)
      have h2 := le_foldl_keepBest t (keepBest a m)
      rw [h1] at h2
      rw [h] at h2
      exact absurd (lt_of_lt_of_le hm h2) (lt_irrefl _)
    · have he : keepBest a m = a := by unfold keepBest; rw [if_neg hm]
      rw [he] at h ⊢
      exact ih a h

theorem foldl_keepBest_of_le (l : List (ℚ × (Nat × Nat)))
    (a : ℚ × Option (Nat × Nat))
    (h : ∀ m ∈ l, m.1 ≤ a.1) : l.foldl keepBest a = a := by
  induction l with
  | nil => rfl
  | cons m t ih =>
    rw [List.foldl_cons]
    have he : keepBest a m = a := by
      unfold keepBest
      rw [if_neg (not_lt.mpr (h m (List.mem_cons_self m t)))]
    rw [he]
    exact ih fun q hq => h q (List.mem_cons_of_mem m hq)

theorem foldl_keepBest_find (l : List (ℚ × (Nat × Nat)))
    (a : ℚ × Option (Nat × Nat))
    (h : a.1 < (l.foldl keepBest a).1) :
    ∃ m, l.find? (fun v => decide (v.1 = (l.foldl keepBest a).1)) = some m
      ∧ (l.foldl keepBest a).2 = some m.2 := by
  induction l generalizing a with
  | nil => exact absurd h (lt_irrefl _)
  | cons m t ih =>
    rw [List.foldl_cons] at h ⊢
    by_cases hm : a.1 < m.1
    · have hk : keepBest a m = (m.1, some m.2) := by unfold keepBest; rw [if_pos hm]
      rw [hk] at h ⊢
      by_cases hEq : (t.foldl keepBest (m.1, some m.2)).1 = m.1
      · have hself := foldl_keepBest_eq_self t (m.1, some m.2) hEq
        rw [hself]
        refine ⟨m, ?_, rfl⟩
        rw [List.find?_cons_of_pos _ (by simp)]
      · have hlt : m.1 < (t.foldl keepBest (m.1, some m.2)).1 :=
          lt_of_le_of_ne (le_foldl_keepBest t (m.1, some m.2)) (Ne.symm hEq)
        obtain ⟨q, hq1, hq2⟩ := ih (m.1, some m.2) hlt
        refine ⟨q, ?_, hq2⟩
        rw [List.find?_cons_of_neg _ (by simpa using Ne.symm hEq), hq1]
    · have hk : keepBest a m = a := by unfold keepBest; rw [if_neg hm]
      rw [hk] at h ⊢
      obtain ⟨q, hq1, hq2⟩ := ih a h
      have hmne : ¬ m.1 = (t.foldl keepBest a).1 := by
        intro hEq
        have hma : m.1 ≤ a.1 := le_of_not_lt hm
        rw [hEq] at hma
        exact absurd (lt_of_lt_of_le h hma) (lt_irrefl _)
      refine ⟨q, ?_, hq2⟩
      rw [List.find?_cons_of_neg _ (by simpa using hmne), hq1]

theorem scaleStep_ok (sc : Img → Img → Nat → Nat → ℚ)
    (rc : Img → Nat → Nat → Nat → Nat → Nat → ℚ)
    (ref screenshot : Img) (acc : ℚ × Option (Nat × Nat)) (scale : ℚ) :
    scaleStep sc rc ref screenshot acc scale =
      .ok (match scaleResult sc rc ref screenshot scale with
           | none => acc
           | some m => keepBest acc m) := by
  unfold scaleStep scaleResult keepBest cvResize
  by_cases h1 : (⌊(ref.w : ℚ) * scale⌋ ≤ 0 ∨ ⌊(ref.h : ℚ) * scale⌋ ≤ 0)
  · simp only [if_pos h1]
  · simp only [if_neg h1]
    by_cases h2 : (screenshot.h < (⌊(ref.h : ℚ) * scale⌋).toNat
        ∨ screenshot.w < (⌊(ref.w : ℚ) * scale⌋).toNat)
    · simp only [if_pos h2]
    · simp only [if_neg h2]
      push_neg at h1 h2
      have hC : 0 < (⌊(ref.h : ℚ) * scale⌋).toNat ∧ 0 < (⌊(ref.w : ℚ) * scale⌋).toNat
          ∧ (⌊(ref.h : ℚ) * scale⌋).toNat ≤ screenshot.h
          ∧ (⌊(ref.w : ℚ) * scale⌋).toNat ≤ screenshot.w := by
        obtain ⟨hw, hh⟩ := h1
        obtain ⟨hsh, hsw⟩ := h2
        omega
      unfold matchTemplate
      simp only [if_pos hC]
      split <;> rfl

theorem foldlM_scaleStep (sc : Img → Img → Nat → Nat → ℚ)
    (rc : Img → Nat → Nat → Nat → Nat → Nat → ℚ)
    (ref screenshot : Img) (l : List ℚ) (acc : ℚ × Option (Nat × Nat)) :
    l.foldlM (scaleStep sc rc ref screenshot) acc =
      .ok ((l.filterMap (scaleResult sc rc ref screenshot)).foldl keepBest acc) := by
  induction l generalizing acc with
  | nil => rfl
  | cons q t ih =>
    rw [List.foldlM_cons, scaleStep_ok]
    cases h : scaleResult sc rc ref screenshot q with
    | none =>
      simp only [h, List.filterMap_cons_none h]
      simpa using ih acc
    | some m =>
      simp only [h, List.filterMap_cons_some h]
      simpa using ih (keepBest acc m)

theorem multiResult_eq (fe : String → Bool) (ir : String → Option Img)
    (sc : Img → Img → Nat → Nat → ℚ)
    (rc : Img → Nat → Nat → Nat → Nat → Nat → ℚ)
    (ref : Img) (t : ℚ) (sp : String) (screenshot : Img)
    (hfe : fe sp = true) (hir : ir sp = some screenshot) :
    multiResult fe ir sc rc (some ref) t sp =
      if t ≤ (multiBest sc rc ref screenshot).1
      then ⟨true, (multiBest sc rc ref screenshot).1,
        (multiBest sc rc ref screenshot).2⟩
      else ⟨false, (multiBest sc rc ref screenshot).1,
        (multiBest sc rc ref screenshot).2⟩ := by
  unfold multiResult
  rw [hfe, hir]
  simp only [foldlM_scaleStep]
  rfl

theorem mem_positions (rh rw p) :
    p ∈ positions rh rw ↔ p.1 < rw ∧ p.2 < rh := by
  cases p with
  | mk x y =>
    simp only [positions, List.mem_flatMap, List.mem_map, List.mem_range]
    constructor
    · rintro ⟨b, hb, a, ha, hEq⟩
      obtain ⟨h1, h2⟩ := Prod.mk.injEq .. ▸ hEq
      exact ⟨h1 ▸ ha, h2 ▸ hb⟩
    · rintro ⟨h1, h2⟩
      exact ⟨y, h2, x, h1, rfl⟩

theorem foldl_maxStep_le (s : Surface) (l : List (Nat × Nat))
    (a : ℚ × (Nat × Nat)) :
    a.1 ≤ (l.foldl (maxStep s) a).1
    ∧ ∀ q ∈ l, s.val q.2 q.1 ≤ (l.foldl (maxStep s) a).1 := by
  induction l generalizing a with
  | nil => exact ⟨le_refl _, by simp⟩
  | cons p t ih =>
    have step_le : a.1 ≤ (maxStep s a p).1 := by
      unfold maxStep
      split
      · next h => exact le_of_lt h
      · exact le_refl _
    have step_ge : s.val p.2 p.1 ≤ (maxStep s a p).1 := by
      unfold maxStep
      split
      · exact le_refl _
      · next h => exact le_of_not_lt h
    rw [List.foldl_cons]
    refine ⟨le_trans step_le (ih (maxStep s a p)).1, ?_⟩
    intro q hq
    rcases List.mem_cons.mp hq with h | h
    · subst h
      exact le_trans step_ge (ih (maxStep s a q)).1
    · exact (ih (maxStep s a p)).2 q h

theorem foldl_maxStep_attained (s : Surface) (l : List (Nat × Nat))
    (a : ℚ × (Nat × Nat)) :
    l.foldl (maxStep s) a = a
    ∨ ∃ q ∈ l, l.foldl (maxStep s) a = (s.val q.2 q.1, q) := by
  induction l generalizing a with
  | nil => exact Or.inl rfl
  | cons p t ih =>
    rw [List.foldl_cons]
    by_cases h : a.1 < s.val p.2 p.1
    · have hp : maxStep s a p = (s.val p.2 p.1, p) := by unfold maxStep; rw [if_pos h]
      rw [hp]
      rcases ih (s.val p.2 p.1, p) with h1 | ⟨q, hq, h2⟩
      · exact Or.inr ⟨p, List.mem_cons_self p t, h1⟩
      · exact Or.inr ⟨q, List.mem_cons_of_mem p hq, h2⟩
    · have hp : maxStep s a p = a := by unfold maxStep; rw [if_neg h]
      rw [hp]
      rcases ih a with h1 | ⟨q, hq, h2⟩
      · exact Or.inl h1
      · exact Or.inr ⟨q, List.mem_cons_of_mem p hq, h2⟩

theorem maxLoc_unique (s : Surface) (x0 y0 : Nat) (v : ℚ)
    (hx : x0 < s.rw) (hy : y0 < s.rh)
    (hv : s.val y0 x0 = v)
    (hlt : ∀ y, y < s.rh → ∀ x, x < s.rw → (x, y) ≠ (x0, y0) →
      s.val y x < v) :
    maxLoc s = (v, (x0, y0)) := by
  have hrh : 0 < s.rh := Nat.pos_of_ne_zero fun h => by omega
  have hrw : 0 < s.rw := Nat.pos_of_ne_zero fun h => by omega
  have hmem : ((x0, y0) : Nat × Nat) ∈ positions s.rh s.rw :=
    (mem_positions s.rh s.rw (x0, y0)).mpr ⟨hx, hy⟩
  have hub := (foldl_maxStep_le s (positions s.rh s.rw) (s.val 0 0, (0, 0))).2
    (x0, y0) hmem
  rw [hv] at hub
  unfold maxLoc
  rcases foldl_maxStep_attained s (positions s.rh s.rw) (s.val 0 0, (0, 0))
      with h | ⟨q, hq, h⟩
  · by_cases h0 : ((0, 0) : Nat × Nat) = (x0, y0)
    · obtain ⟨h1, h2⟩ := Prod.mk.injEq .. ▸ h0
      rw [h]
      subst h1; subst h2
      rw [hv]
    · exfalso
      have hlt0 := hlt 0 hrh 0 hrw h0
      rw [h] at hub
      exact absurd (lt_of_lt_of_le hlt0 hub) (lt_irrefl _)
  · by_cases hq0 : q = (x0, y0)
    · subst hq0
      rw [h, hv]
    · exfalso
      obtain ⟨hq1, hq2⟩ := (mem_positions s.rh s.rw q).mp hq
      have hltq := hlt q.2 hq2 q.1 hq1 fun hEq => hq0 (by
        rw [← Prod.mk.eta (p := q)]
        exact hEq)
      rw [h] at hub
      exact absurd (lt_of_lt_of_le hltq hub) (lt_irrefl _)

theorem tmplSS_dims (tmpl : Img) (hT : 0 < tmplSS tmpl) :
    0 < tmpl.h ∧ 0 < tmpl.w := by
  constructor
  · by_contra h
    push_neg at h
    have h0 : tmpl.h = 0 := Nat.le_zero.mp h
    rw [tmplSS, h0] at hT
    simp at hT
  · by_contra h
    push_neg at h
    have h0 : tmpl.w = 0 := Nat.le_zero.mp h
    rw [tmplSS, h0] at hT
    simp at hT

theorem regionDev_paste (canvas tmpl : Img) (x0 y0 : Nat)
    (hpaste : ∀ i, i < tmpl.h → ∀ j, j < tmpl.w → ∀ c, c < 3 →
      canvas.px (y0 + i) (x0 + j) c = tmpl.px i j c)
    (c i j : Nat) (hc : c < 3) (hi : i < tmpl.h) (hj : j < tmpl.w) :
    regionDev canvas.px y0 x0 tmpl.h tmpl.w c i j =
      regionDev tmpl.px 0 0 tmpl.h tmpl.w c i j := by
  have hsum : (∑ a ∈ Finset.range tmpl.h, ∑ b ∈ Finset.range tmpl.w,
      canvas.px (y0 + a) (x0 + b) c) =
      ∑ a ∈ Finset.range tmpl.h, ∑ b ∈ Finset.range tmpl.w,
        tmpl.px (0 + a) (0 + b) c := by
    refine Finset.sum_congr rfl fun a ha => Finset.sum_congr rfl fun b hb => ?_
    rw [Nat.zero_add, Nat.zero_add]
    exact hpaste a (Finset.mem_range.mp ha) b (Finset.mem_range.mp hb) c hc
  unfold regionDev regionMean
  rw [hsum, hpaste i hi j hj c hc, Nat.zero_add, Nat.zero_add]

theorem corrNum_paste (canvas tmpl : Img) (x0 y0 : Nat)
    (hpaste : ∀ i, i < tmpl.h → ∀ j, j < tmpl.w → ∀ c, c < 3 →
      canvas.px (y0 + i) (x0 + j) c = tmpl.px i j c) :
    corrNum canvas tmpl y0 x0 = tmplSS tmpl := by
  unfold corrNum tmplSS
  refine Finset.sum_congr rfl fun c hc => Finset.sum_congr rfl fun i hi =>
    Finset.sum_congr rfl fun j hj => ?_
  rw [regionDev_paste canvas tmpl x0 y0 hpaste c i j (Finset.mem_range.mp hc)
    (Finset.mem_range.mp hi) (Finset.mem_range.mp hj), pow_two]

theorem winSS_paste (canvas tmpl : Img) (x0 y0 : Nat)
    (hpaste : ∀ i, i < tmpl.h → ∀ j, j < tmpl.w → ∀ c, c < 3 →
      canvas.px (y0 + i) (x0 + j) c = tmpl.px i j c) :
    winSS canvas tmpl y0 x0 = tmplSS tmpl := by
  unfold winSS tmplSS
  refine Finset.sum_congr rfl fun c hc => Finset.sum_congr rfl fun i hi =>
    Finset.sum_congr rfl fun j hj => ?_
  rw [regionDev_paste canvas tmpl x0 y0 hpaste c i j (Finset.mem_range.mp hc)
    (Finset.mem_range.mp hi) (Finset.mem_range.mp hj)]

theorem nccSq_paste (canvas tmpl : Img) (x0 y0 : Nat)
    (hpaste : ∀ i, i < tmpl.h → ∀ j, j < tmpl.w → ∀ c, c < 3 →
      canvas.px (y0 + i) (x0 + j) c = tmpl.px i j c)
    (hT : 0 < tmplSS tmpl) :
    nccSq canvas tmpl y0 x0 = 1 := by
  unfold nccSq
  rw [corrNum_paste canvas tmpl x0 y0 hpaste, winSS_paste canvas tmpl x0 y0 hpaste,
    abs_of_pos hT]
  exact div_self (mul_ne_zero (ne_of_gt hT) (ne_of_gt hT))

theorem singleResult_iff (fe : String → Bool) (ir : String → Option Img)
    (sc : Img → Img → Nat → Nat → ℚ) (ri : Option Img) (t : ℚ) (sp : String)
    (ht : 0 < t) :
    ((singleResult fe ir sc ri t sp).found = true
      ↔ t ≤ (singleResult fe ir sc ri t sp).confidence) := by
  unfold singleResult
  cases ri with
  | none => exact iff_of_false (by simp) (not_le.mpr ht)
  | some ref =>
    dsimp only
    by_cases hfe : fe sp = true
    · rw [if_pos hfe]
      cases hir : ir sp with
      | none => exact iff_of_false (by simp) (not_le.mpr ht)
      | some shot =>
        dsimp only
        cases hmt : matchTemplate sc shot ref with
        | error e => exact iff_of_false (by simp) (not_le.mpr ht)
        | ok result =>
          dsimp only
          split
          · next h => exact iff_of_true rfl h
          · next h => exact iff_of_false (by simp) h
    · rw [if_neg hfe]
      exact iff_of_false (by simp) (not_le.mpr ht)

theorem multiResult_iff (fe : String → Bool) (ir : String → Option Img)
    (sc : Img → Img → Nat → Nat → ℚ)
    (rc : Img → Nat → Nat → Nat → Nat → Nat → ℚ)
    (ri : Option Img) (t : ℚ) (sp : String) (ht : 0 < t) :
    ((multiResult fe ir sc rc ri t sp).found = true
      ↔ t ≤ (multiResult fe ir sc rc ri t sp).confidence) := by
  unfold multiResult
  cases ri with
  | none => exact iff_of_false (by simp) (not_le.mpr ht)
  | some ref =>
    dsimp only
    by_cases hfe : fe sp = true
    · rw [if_pos hfe]
      cases hir : ir sp with
      | none => exact iff_of_false (by simp) (not_le.mpr ht)
      | some shot =>
        dsimp only
        cases hfold : List.foldlM (scaleStep sc rc ref shot)
            ((0 : ℚ), (none : Option (Nat × Nat))) scales with
        | error e => exact iff_of_false (by simp) (not_le.mpr ht)
        | ok best =>
          dsimp only
          split
          · next h => exact iff_of_true rfl h
          · next h => exact iff_of_false (by simp) h
    · rw [if_neg hfe]
      exact iff_of_false (by simp) (not_le.mpr ht)

/-- C1: for every strictly positive threshold in (0, 1], both detectors
return `found = true` exactly when the returned confidence reaches the
threshold, on every path including the error/short-circuit ones.  The
claimed full range [0, 1] fails at threshold 0 (see the counterexample):
the short-circuit paths return `found = false` with confidence `0.0`,
which ties a zero threshold. -/
theorem c1_found_iff_threshold (env : Env) (st : RecState) (sp : String)
    (ht0 : 0 < st.threshold) (ht1 : st.threshold ≤ 1) :
    ((detect_ice_butterfly env st sp).1.found = true
      ↔ st.threshold ≤ (detect_ice_butterfly env st sp).1.confidence)
    ∧ ((detect_multiple_scales env st sp).1.found = true
      ↔ st.threshold ≤ (detect_multiple_scales env st sp).1.confidence) :=
  ⟨singleResult_iff env.fileExists env.imread env.score st.reference_image
      st.threshold sp ht0,
    multiResult_iff env.fileExists env.imread env.score env.resizeContent
      st.reference_image st.threshold sp ht0⟩

/-- C1 counterexample: at the in-range threshold `0`, a call whose
reference never loaded returns `found = false` while its confidence
`0.0` is `≥ 0`, so the claimed equivalence fails on that error path. -/
theorem c1_counterexample :
    (0 : ℚ) ≤ st1c.threshold ∧ st1c.threshold ≤ 1
    ∧ ¬(((detect_ice_butterfly env0 st1c "shot.png").1.found = true)
        ↔ st1c.threshold ≤ (detect_ice_butterfly env0 st1c "shot.png").1.confidence) := by
  refine ⟨le_refl _, by decide, ?_⟩
  intro h
  exact absurd (h.mpr (le_refl _)) (by decide)

theorem c1_found_iff_threshold_witness :
    ((detect_ice_butterfly envRead stRef2 "s").1.found = true
      ↔ stRef2.threshold ≤ (detect_ice_butterfly envRead stRef2 "s").1.confidence)
    ∧ ((detect_multiple_scales envRead stRef2 "s").1.found = true
      ↔ stRef2.threshold ≤ (detect_multiple_scales envRead stRef2 "s").1.confidence) :=
  c1_found_iff_threshold envRead stRef2 "s" (by decide) (by decide)

/-- C2: `detect_ice_butterfly` returns exactly `(false, 0.0, None)` when the
reference never loaded, when the screenshot path does not exist, when the
screenshot does not decode, and when the reference exceeds the screenshot in
either dimension (the matching error is caught, nothing reaches the caller;
the function is total here). -/
theorem c2_failure_paths (env : Env) (st : RecState) (sp : String) :
    (st.reference_image = none →
      detect_ice_butterfly env st sp = (⟨false, 0, none⟩, st))
    ∧ (env.fileExists sp = false →
      detect_ice_butterfly env st sp = (⟨false, 0, none⟩, st))
    ∧ (env.imread sp = none →
      detect_ice_butterfly env st sp = (⟨false, 0, none⟩, st))
    ∧ (∀ ref shot, st.reference_image = some ref → env.imread sp = some shot →
      shot.h < ref.h ∨ shot.w < ref.w →
      detect_ice_butterfly env st sp = (⟨false, 0, none⟩, st)) := by
  refine ⟨?_, ?_, ?_, ?_⟩
  · intro h
    unfold detect_ice_butterfly singleResult
    rw [h]
  · intro h
    unfold detect_ice_butterfly singleResult
    cases hri : st.reference_image with
    | none => rfl
    | some ref =>
      dsimp only
      rw [if_neg (by simp [h])]
  · intro h
    unfold detect_ice_butterfly singleResult
    cases hri : st.reference_image with
    | none => rfl
    | some ref =>
      dsimp only
      by_cases hfe : env.fileExists sp = true
      · rw [if_pos hfe, h]
      · rw [if_neg hfe]
  · intro ref shot hri hir hgeo
    unfold detect_ice_butterfly singleResult
    rw [hri]
    dsimp only
    by_cases hfe : env.fileExists sp = true
    · rw [if_pos hfe, hir]
      dsimp only
      have hmt : matchTemplate env.score shot ref = .error () := by
        unfold matchTemplate
        rw [if_neg (by
          rintro ⟨h1, h2, h3, h4⟩
          omega)]
      rw [hmt]
    · rw [if_neg hfe]

theorem c2_failure_paths_witness :
    detect_ice_butterfly env0 stNoRef "s" = (⟨false, 0, none⟩, stNoRef)
    ∧ detect_ice_butterfly env0 stRef2 "s" = (⟨false, 0, none⟩, stRef2)
    ∧ detect_ice_butterfly envExistsOnly stRef2 "s" = (⟨false, 0, none⟩, stRef2)
    ∧ detect_ice_butterfly envTiny stRef2 "s" = (⟨false, 0, none⟩, stRef2) :=
  ⟨(c2_failure_paths env0 stNoRef "s").1 rfl,
    (c2_failure_paths env0 stRef2 "s").2.1 rfl,
    (c2_failure_paths envExistsOnly stRef2 "s").2.2.1 rfl,
    (c2_failure_paths envTiny stRef2 "s").2.2.2 ref2 (constImg 1 1 0) rfl rfl
      (Or.inl (by decide))⟩

theorem detect_ref_none (env : Env) (st : RecState) (sp : String)
    (h : st.reference_image = none) :
    detect_ice_butterfly env st sp = (⟨false, 0, none⟩, st) := by
  unfold detect_ice_butterfly singleResult
  rw [h]

theorem init_ref_none (env : Env) (path : String) (t : ℚ)
    (h : env.fileExists path = false ∨ env.imread path = none) :
    (ImageRecognition_init env path t).reference_image = none := by
  unfold ImageRecognition_init load_reference_image
  rcases h with h | h
  · rw [if_neg (by simp [h])]
  · split
    · exact h
    · rfl

/-- C6: constructing the recognizer over a nonexistent reference path leaves
`reference_image = None`, and every later `detect_ice_butterfly` call then
returns `(false, 0.0, None)` whatever the file system looks like at call
time (the result is the same under every environment, i.e. no file is
consulted) and whatever the screenshot path is. -/
theorem c6_unavailable_state (env : Env) (path : String) (t : ℚ)
    (h : env.fileExists path = false) :
    (ImageRecognition_init env path t).reference_image = none
    ∧ ∀ env₂ sp, detect_ice_butterfly env₂ (ImageRecognition_init env path t) sp
        = (⟨false, 0, none⟩, ImageRecognition_init env path t) := by
  have hr := init_ref_none env path t (Or.inl h)
  exact ⟨hr, fun env₂ sp => detect_ref_none env₂ _ sp hr⟩

theorem c6_unavailable_state_witness :
    (ImageRecognition_init env0 "missing.png" (4/5)).reference_image = none
    ∧ detect_ice_butterfly envRead (ImageRecognition_init env0 "missing.png" (4/5)) "s"
        = (⟨false, 0, none⟩, ImageRecognition_init env0 "missing.png" (4/5)) :=
  ⟨(c6_unavailable_state env0 "missing.png" (4/5) rfl).1,
    (c6_unavailable_state env0 "missing.png" (4/5) rfl).2 envRead "s"⟩

/-- C7: when the reference file is missing or does not decode, the
constructor yields the error state of the `ReferenceLoadError` entry of
the error taxonomy in the spec — no usable detector: `reference_image = None` and every
subsequent detect call reports `found = false` (the constructor itself
never raises, so "fails" is realised as this unavailable state). -/
theorem c7_reference_load_error (env : Env) (path : String) (t : ℚ)
    (h : env.fileExists path = false ∨ env.imread path = none) :
    (ImageRecognition_init env path t).reference_image = none
    ∧ ∀ env₂ sp,
      (detect_ice_butterfly env₂ (ImageRecognition_init env path t) sp).1.found
        = false := by
  have hr := init_ref_none env path t h
  refine ⟨hr, fun env₂ sp => ?_⟩
  rw [detect_ref_none env₂ _ sp hr]

theorem c7_reference_load_error_witness :
    (ImageRecognition_init envExistsOnly "r" (4/5)).reference_image = none
    ∧ (detect_ice_butterfly envRead
        (ImageRecognition_init envExistsOnly "r" (4/5)) "s").1.found = false :=
  ⟨(c7_reference_load_error envExistsOnly "r" (4/5) (Or.inr rfl)).1,
    (c7_reference_load_error envExistsOnly "r" (4/5) (Or.inr rfl)).2 envRead "s"⟩

theorem singleResult_local (fe₁ fe₂ : String → Bool)
    (ir₁ ir₂ : String → Option Img) (sc : Img → Img → Nat → Nat → ℚ)
    (ri : Option Img) (t : ℚ) (sp : String)
    (hfe : fe₁ sp = fe₂ sp) (hir : ir₁ sp = ir₂ sp) :
    singleResult fe₁ ir₁ sc ri t sp = singleResult fe₂ ir₂ sc ri t sp := by
  unfold singleResult
  cases ri with
  | none => rfl
  | some ref =>
    dsimp only
    rw [hfe, hir]

/-- C8: `detect_ice_butterfly` is a pure function of the loaded reference,
the stored threshold, and the data found at the screenshot path: any two
calls whose environments agree on the existence and decoded pixels at that path
and on the matching scores, and whose states carry the same reference and
threshold, return the same result (so repeated identical calls agree); and
the state coming back is the state passed in — nothing is mutated. -/
theorem c8_detect_pure (env₁ env₂ : Env) (st₁ st₂ : RecState) (sp : String)
    (hfe : env₁.fileExists sp = env₂.fileExists sp)
    (hir : env₁.imread sp = env₂.imread sp)
    (hsc : env₁.score = env₂.score)
    (hri : st₁.reference_image = st₂.reference_image)
    (ht : st₁.threshold = st₂.threshold) :
    (detect_ice_butterfly env₁ st₁ sp).1 = (detect_ice_butterfly env₂ st₂ sp).1
    ∧ (detect_ice_butterfly env₁ st₁ sp).2 = st₁
    ∧ (detect_ice_butterfly env₂ st₂ sp).2 = st₂ := by
  refine ⟨?_, rfl, rfl⟩
  show singleResult env₁.fileExists env₁.imread env₁.score st₁.reference_image
      st₁.threshold sp
    = singleResult env₂.fileExists env₂.imread env₂.score st₂.reference_image
      st₂.threshold sp
  rw [hsc, hri, ht]
  exact singleResult_local _ _ _ _ _ _ _ _ hfe hir

theorem c8_detect_pure_witness :
    (detect_ice_butterfly envRead st9 "s").1
      = (detect_ice_butterfly env8b st8b "s").1
    ∧ (detect_ice_butterfly envRead st9 "s").2 = st9
    ∧ (detect_ice_butterfly env8b st8b "s").2 = st8b :=
  c8_detect_pure envRead env8b st9 st8b "s" (by decide) rfl rfl rfl rfl

/-- C3 (amended): under a loaded reference and decodable screenshot, the
multi-scale detector iterates the scales `[0.5, 0.75, 1.0, 1.25, 1.5]` in
order (the list `validScores` is built in that order from the same resize
and skip rules), and returns as confidence the maximum of `0.0` and the
per-scale best scores — not the raw maximum, which is lost when every valid
scale scores `≤ 0` (see the counterexample).  When some valid scale scores
above `0.0`, the returned position is that of the first scale attaining the
maximum (strict `>`, ties keep the earliest); otherwise the position is
`None`. -/
theorem c3_multi_scale_best (env : Env) (st : RecState) (sp : String)
    (ref shot : Img)
    (hri : st.reference_image = some ref)
    (hfe : env.fileExists sp = true)
    (hir : env.imread sp = some shot) :
    (detect_multiple_scales env st sp).1.confidence
      = ((validScores env.score env.resizeContent ref shot).map Prod.fst).foldl
          max 0
    ∧ ((detect_multiple_scales env st sp).1.confidence = 0 →
        (detect_multiple_scales env st sp).1.position = none)
    ∧ (0 < (detect_multiple_scales env st sp).1.confidence →
        ∃ m, (validScores env.score env.resizeContent ref shot).find?
            (fun v =>
              decide (v.1 = (detect_multiple_scales env st sp).1.confidence))
            = some m
          ∧ (detect_multiple_scales env st sp).1.position = some m.2) := by
  have hres : (detect_multiple_scales env st sp).1
      = if st.threshold ≤ (multiBest env.score env.resizeContent ref shot).1
        then ⟨true, (multiBest env.score env.resizeContent ref shot).1,
          (multiBest env.score env.resizeContent ref shot).2⟩
        else ⟨false, (multiBest env.score env.resizeContent ref shot).1,
          (multiBest env.score env.resizeContent ref shot).2⟩ := by
    show multiResult env.fileExists env.imread env.score env.resizeContent
        st.reference_image st.threshold sp = _
    rw [hri]
    exact multiResult_eq env.fileExists env.imread env.score env.resizeContent
      ref st.threshold sp shot hfe hir
  have hconf : (detect_multiple_scales env st sp).1.confidence
      = (multiBest env.score env.resizeContent ref shot).1 := by
    rw [hres]; split <;> rfl
  have hpos : (detect_multiple_scales env st sp).1.position
      = (multiBest env.score env.resizeContent ref shot).2 := by
    rw [hres]; split <;> rfl
  refine ⟨?_, ?_, ?_⟩
  · rw [hconf]
    exact foldl_keepBest_fst _ _
  · intro h0
    rw [hconf] at h0
    have hself := foldl_keepBest_eq_self
      (validScores env.score env.resizeContent ref shot) (0, none) h0
    rw [hpos]
    show ((validScores env.score env.resizeContent ref shot).foldl keepBest
      (0, none)).2 = none
    rw [hself]
  · intro hgt
    rw [hconf] at hgt
    obtain ⟨m, hm1, hm2⟩ := foldl_keepBest_find
      (validScores env.score env.resizeContent ref shot) (0, none) hgt
    refine ⟨m, ?_, ?_⟩
    · rw [hconf]
      exact hm1
    · rw [hpos]
      exact hm2

/-- C3 counterexample: with every matching score equal to `-1/2`, all five
scales are valid and the best score across scales is `-1/2`, but the call
returns confidence `0.0` (the floor of the accumulator) and position `None`, not
the maximum score and its position as claimed. -/
theorem c3_counterexample :
    ((validScores envNeg.score envNeg.resizeContent ref2 (constImg 3 3 0)).map
        Prod.fst)
      = [-(1/2), -(1/2), -(1/2), -(1/2), -(1/2)]
    ∧ (detect_multiple_scales envNeg stC3 "s").1.confidence = 0
    ∧ (detect_multiple_scales envNeg stC3 "s").1.position = none
    ∧ ((0 : ℚ) = -(1/2) → False) := by
  refine ⟨by decide, by decide, by decide, by decide⟩

theorem c3_multi_scale_best_witness :
    (detect_multiple_scales envHalf stRef2 "s").1.confidence
      = ((validScores envHalf.score envHalf.resizeContent ref2
          (constImg 9 9 7)).map Prod.fst).foldl max 0
    ∧ ((detect_multiple_scales envHalf stRef2 "s").1.confidence = 0 →
        (detect_multiple_scales envHalf stRef2 "s").1.position = none)
    ∧ (0 < (detect_multiple_scales envHalf stRef2 "s").1.confidence →
        ∃ m, (validScores envHalf.score envHalf.resizeContent ref2
            (constImg 9 9 7)).find?
            (fun v =>
              decide (v.1 = (detect_multiple_scales envHalf stRef2 "s").1.confidence))
            = some m
          ∧ (detect_multiple_scales envHalf stRef2 "s").1.position = some m.2) :=
  c3_multi_scale_best envHalf stRef2 "s" ref2 (constImg 9 9 7) rfl rfl rfl

/-- C4 (amended): for strictly positive thresholds in (0, 1], a multi-scale
call in which every scale is skipped returns exactly
`(false, 0.0, None)`.  At the in-range threshold `0` this fails: the best
confidence stays `0.0`, which ties the threshold, so the call reports
`found = true` (see the counterexample). -/
theorem c4_no_valid_scale (env : Env) (st : RecState) (sp : String)
    (ref shot : Img)
    (hri : st.reference_image = some ref)
    (hfe : env.fileExists sp = true)
    (hir : env.imread sp = some shot)
    (ht0 : 0 < st.threshold) (ht1 : st.threshold ≤ 1)
    (hnone : ∀ q ∈ scales,
      scaleResult env.score env.resizeContent ref shot q = none) :
    detect_multiple_scales env st sp = (⟨false, 0, none⟩, st) := by
  have hvs : validScores env.score env.resizeContent ref shot = [] := by
    unfold validScores
    exact List.filterMap_eq_nil_iff.mpr hnone
  have hmb : multiBest env.score env.resizeContent ref shot = (0, none) := by
    unfold multiBest
    rw [hvs]
    rfl
  have hm : multiResult env.fileExists env.imread env.score env.resizeContent
      st.reference_image st.threshold sp = ⟨false, 0, none⟩ := by
    rw [hri, multiResult_eq env.fileExists env.imread env.score
      env.resizeContent ref st.threshold sp shot hfe hir, hmb]
    rw [if_neg (not_le.mpr ht0)]
  exact congrArg (fun r => (r, st)) hm

/-- C4 counterexample: threshold `0` lies in [0, 1]; with a 4 × 4 reference
and a 1 × 1 screenshot every scale is skipped, yet the call returns
`(true, 0.0, None)` rather than `(false, 0.0, None)`. -/
theorem c4_counterexample :
    st4z.threshold = 0
    ∧ (∀ q ∈ scales, scaleResult envTiny.score envTiny.resizeContent ref4
        (constImg 1 1 0) q = none)
    ∧ (detect_multiple_scales envTiny st4z "s").1 = ⟨true, 0, none⟩ :=
  ⟨rfl, by decide, by decide⟩

theorem c4_no_valid_scale_witness :
    detect_multiple_scales envTiny st4w "s" = (⟨false, 0, none⟩, st4w) :=
  c4_no_valid_scale envTiny st4w "s" ref4 (constImg 1 1 0) rfl rfl rfl
    (by decide) (by decide) (by decide)

/-- C10: (a) the multi-scale confidence is never negative — the accumulator
starts at `0.0` and only strictly larger scores replace it; (b) whenever
the best score of every valid scale is `≤ 0`, the call returns confidence `0.0`
and position `None` although matching ran; (c) single-scale
`detect_ice_butterfly` returns the raw surface maximum, negative or not. -/
theorem c10_confidence_floor :
    (∀ env st sp, (0 : ℚ) ≤ (detect_multiple_scales env st sp).1.confidence)
    ∧ (∀ env st sp (ref shot : Img),
        st.reference_image = some ref → env.fileExists sp = true →
        env.imread sp = some shot →
        (∀ m ∈ validScores env.score env.resizeContent ref shot, m.1 ≤ 0) →
        (detect_multiple_scales env st sp).1.confidence = 0
        ∧ (detect_multiple_scales env st sp).1.position = none)
    ∧ (∀ env st sp (ref shot : Img) (surf : Surface),
        st.reference_image = some ref → env.fileExists sp = true →
        env.imread sp = some shot →
        matchTemplate env.score shot ref = .ok surf →
        (detect_ice_butterfly env st sp).1.confidence = (maxLoc surf).1) := by
  refine ⟨?_, ?_, ?_⟩
  · intro env st sp
    show (0 : ℚ) ≤ (multiResult env.fileExists env.imread env.score
      env.resizeContent st.reference_image st.threshold sp).confidence
    unfold multiResult
    cases hri : st.reference_image with
    | none => exact le_refl _
    | some ref =>
      dsimp only
      by_cases hfe : env.fileExists sp = true
      · rw [if_pos hfe]
        cases hir : env.imread sp with
        | none => exact le_refl _
        | some shot =>
          dsimp only
          rw [foldlM_scaleStep]
          dsimp only
          have h0 := le_foldl_keepBest
            (scales.filterMap (scaleResult env.score env.resizeContent ref shot))
            (0, none)
          split
          · exact h0
          · exact h0
      · rw [if_neg hfe]
  · intro env st sp ref shot hri hfe hir hle
    have hmb : multiBest env.score env.resizeContent ref shot = (0, none) :=
      foldl_keepBest_of_le _ _ hle
    have hres : (detect_multiple_scales env st sp).1
        = if st.threshold ≤ (multiBest env.score env.resizeContent ref shot).1
          then ⟨true, (multiBest env.score env.resizeContent ref shot).1,
            (multiBest env.score env.resizeContent ref shot).2⟩
          else ⟨false, (multiBest env.score env.resizeContent ref shot).1,
            (multiBest env.score env.resizeContent ref shot).2⟩ := by
      show multiResult env.fileExists env.imread env.score env.resizeContent
          st.reference_image st.threshold sp = _
      rw [hri]
      exact multiResult_eq env.fileExists env.imread env.score env.resizeContent
        ref st.threshold sp shot hfe hir
    constructor
    · rw [hres, hmb]
      split <;> rfl
    · rw [hres, hmb]
      split <;> rfl
  · intro env st sp ref shot surf hri hfe hir hmt
    show (singleResult env.fileExists env.imread env.score st.reference_image
      st.threshold sp).confidence = _
    unfold singleResult
    rw [hri]
    dsimp only
    rw [if_pos hfe, hir]
    dsimp only
    rw [hmt]
    dsimp only
    split <;> rfl

theorem c10_confidence_floor_witness :
    (0 : ℚ) ≤ (detect_multiple_scales envNeg stC3 "s").1.confidence
    ∧ (detect_multiple_scales envNeg stC3 "s").1.confidence = 0
    ∧ (detect_multiple_scales envNeg stC3 "s").1.position = none
    ∧ (detect_ice_butterfly envNeg stC3 "s").1.confidence = -(1/2) := by
  have ha := c10_confidence_floor.1 envNeg stC3 "s"
  have hb := c10_confidence_floor.2.1 envNeg stC3 "s" ref2 (constImg 3 3 0)
    rfl rfl rfl (by decide)
  have hc := c10_confidence_floor.2.2 envNeg stC3 "s" ref2 (constImg 3 3 0)
    ⟨2, 2, fun y x => envNeg.score (constImg 3 3 0) ref2 y x⟩ rfl rfl rfl
    (by
      unfold matchTemplate
      rw [if_pos (by decide)]
      rfl)
  refine ⟨ha, hb.1, hb.2, ?_⟩
  rw [hc]
  decide

/-- C5 (amended): paste a non-constant reference (`tmplSS > 0`) at
`(x0, y0)` onto a strictly larger canvas and match with the exact
normalized-cross-correlation score (`nccSq`, the signed-square
representation): the pasted offset scores exactly `1`, the maximum
attainable here.  Provided that occurrence is the strict best — every other
offset scores below `1` — the detector returns `found = true` (for any
threshold ≤ 1), confidence `1`, and position `(x0, y0)`.  Without the
strict-best condition the claim fails: the returned position is the first
best-scoring offset in row-major scan order, which differs from `(x0, y0)`
when the canvas already contains another exact copy of the reference (see
the counterexample), and a constant reference (the uniform red
square of the spec) makes the score degenerate rather than `≈ 1` at the paste offset. -/
theorem c5_paste_best_match (env : Env) (st : RecState) (sp : String)
    (canvas ref : Img) (x0 y0 : Nat)
    (hsc : env.score = nccSq)
    (hri : st.reference_image = some ref)
    (hfe : env.fileExists sp = true)
    (hir : env.imread sp = some canvas)
    (hh : ref.h < canvas.h) (hw : ref.w < canvas.w)
    (hyfit : y0 + ref.h ≤ canvas.h) (hxfit : x0 + ref.w ≤ canvas.w)
    (hpaste : ∀ i, i < ref.h → ∀ j, j < ref.w → ∀ c, c < 3 →
      canvas.px (y0 + i) (x0 + j) c = ref.px i j c)
    (hT : 0 < tmplSS ref)
    (hbest : ∀ y, y < canvas.h - ref.h + 1 → ∀ x, x < canvas.w - ref.w + 1 →
      (x, y) ≠ (x0, y0) → nccSq canvas ref y x < 1)
    (hth : st.threshold ≤ 1) :
    (detect_ice_butterfly env st sp).1 = ⟨true, 1, some (x0, y0)⟩ := by
  obtain ⟨h0h, h0w⟩ := tmplSS_dims ref hT
  have hcond : 0 < ref.h ∧ 0 < ref.w ∧ ref.h ≤ canvas.h ∧ ref.w ≤ canvas.w :=
    ⟨h0h, h0w, le_of_lt hh, le_of_lt hw⟩
  have hmt : matchTemplate env.score canvas ref
      = .ok ⟨canvas.h - ref.h + 1, canvas.w - ref.w + 1,
          fun y x => env.score canvas ref y x⟩ := by
    unfold matchTemplate
    rw [if_pos hcond]
  have hml : maxLoc ⟨canvas.h - ref.h + 1, canvas.w - ref.w + 1,
      fun y x => env.score canvas ref y x⟩ = (1, (x0, y0)) := by
    apply maxLoc_unique
    · show x0 < canvas.w - ref.w + 1
      omega
    · show y0 < canvas.h - ref.h + 1
      omega
    · show env.score canvas ref y0 x0 = 1
      rw [hsc]
      exact nccSq_paste canvas ref x0 y0 hpaste hT
    · intro y hy x hx hne
      show env.score canvas ref y x < 1
      rw [hsc]
      exact hbest y hy x hx hne
  show singleResult env.fileExists env.imread env.score st.reference_image
      st.threshold sp = _
  unfold singleResult
  rw [hri]
  dsimp only
  rw [if_pos hfe, hir]
  dsimp only
  rw [hmt]
  dsimp only
  rw [hml]
  dsimp only
  rw [if_pos hth]

/-- C5 counterexample: the canvas `canvas2` (rows `[0, 2, 0, 2]`) is the
`[0, 2]` reference pasted unmodified at offset `(2, 0)` onto a strictly
larger canvas, yet the detector reports position `(0, 0)` — the first of
the two equally perfect matches in scan order — not the paste offset
`(2, 0)` the claim requires (found and confidence behave as claimed). -/
theorem c5_counterexample :
    refW.h < canvas2.h ∧ refW.w < canvas2.w
    ∧ (0 : Nat) + refW.h ≤ canvas2.h ∧ 2 + refW.w ≤ canvas2.w
    ∧ (∀ i, i < refW.h → ∀ j, j < refW.w → ∀ c, c < 3 →
        canvas2.px (0 + i) (2 + j) c = refW.px i j c)
    ∧ (detect_ice_butterfly env5b st5 "s").1.found = true
    ∧ (detect_ice_butterfly env5b st5 "s").1.confidence = 1
    ∧ (detect_ice_butterfly env5b st5 "s").1.position = some (0, 0)
    ∧ ¬ (detect_ice_butterfly env5b st5 "s").1.position = some (2, 0) := by
  refine ⟨by decide, by decide, by decide, by decide, by decide, by decide,
    by decide, by decide, by decide⟩

theorem c5_paste_best_match_witness :
    (detect_ice_butterfly env5 st5 "s").1 = ⟨true, 1, some (1, 0)⟩ :=
  c5_paste_best_match env5 st5 "s" canvasW refW 1 0 rfl rfl rfl rfl
    (by decide) (by decide) (by decide) (by decide) (by decide) (by decide)
    (by decide) (by decide)

/-- C9 (code bug): the `True` of the visualization helper does not certify
the write.  The boolean result of `cv2.imwrite` is discarded, so in an environment
where every write fails by returning `False` (e.g. the output directory
does not exist — no exception is raised), the call still returns `True`,
while the claim (and the spec) require `false` on a bad output path.  The
other half of the claim holds: an exception inside is caught (`.error`
yields `false`) and nothing propagates. -/
theorem c9_ignores_write_failure :
    (∀ p img, env9.imwriteOk p img = .ok false)
    ∧ (create_detection_visualization env9 st9 "s" (0, 0) "out.png").1 = true :=
  ⟨fun _ _ => rfl, by decide⟩
